import Mathlib

/-!
Verification of `parameter_provider.py`.

A shallow embedding of the hierarchical configuration loader in
`parameter_provider.py`: JSON-like parameter trees, the recursive
dictionary merge `_dict_merge`, include resolution
`_import_include_params`, cross-reference resolution
`_resolve_crossreferences` / `_search_crossreference`, the orchestrator
`initialize_parameters`, and the public read API `get_parameter`.

Python strings are modelled as `List Char`; Python dicts as ordered
association lists (`Dict`), matching insertion-order semantics of
Python 3 dicts; raised exceptions as an `Except PyErr` result.
Unbounded recursion in the source (cross-reference search, include
loading from the store) is modelled with an explicit fuel parameter:
fuel exhaustion (`PyErr.fuel`) corresponds to Python's RecursionError.
-/

set_option linter.unusedVariables false

/-- A Python string, modelled as its list of characters. -/
abbrev PStr := List Char

/-- Build a `PStr` from a Lean string literal. -/
def s (x : String) : PStr := x.data

/-- A JSON-like value, as loaded by `json.load`: `None`, booleans,
numbers (modelled as integers), strings, lists, and dicts.  Dicts are
ordered association lists, like Python 3 dicts. -/
inductive Val : Type where
  | null : Val
  | bool : Bool → Val
  | num : Int → Val
  | str : PStr → Val
  | arr : List Val → Val
  | dict : List (PStr × Val) → Val

/-- A Python dict of JSON values: an ordered association list. -/
abbrev Dict := List (PStr × Val)

/-- `d[k]` as an option: first entry whose key equals `k`
(Python dicts have unique keys, so "first" is exact). -/
def lookupD : Dict → PStr → Option Val
  | [], _ => none
  | (k', v) :: rest, k => if k' = k then some v else lookupD rest k

/-- `k in d` for a Python dict. -/
def containsKey (d : Dict) (k : PStr) : Bool :=
  (lookupD d k).isSome

/-- `d[k] = v` for a Python dict: replace the value of an existing key
in place (keeping its position), else append the new entry at the end —
Python 3 insertion-order semantics. -/
def setKey : Dict → PStr → Val → Dict
  | [], k, v => [(k, v)]
  | (k', v') :: rest, k, v =>
    if k' = k then (k', v) :: rest else (k', v') :: setKey rest k v

/-- `del d[k]` (and a no-op when `k` is absent): remove the entry. -/
def eraseKey : Dict → PStr → Dict
  | [], _ => []
  | (k', v) :: rest, k =>
    if k' = k then eraseKey rest k else (k', v) :: eraseKey rest k

/-- The list of keys of a dict. -/
def keysD (d : Dict) : List PStr := d.map Prod.fst

/-- Python dicts never hold a key twice; statements about dicts built by
Python carry this hypothesis. -/
def keysNodup (d : Dict) : Prop := (keysD d).Nodup

instance (d : Dict) : Decidable (keysNodup d) := by
  unfold keysNodup; infer_instance

/-- The loop body of `_dict_merge`: `out` starts as `dict1.copy()` and
each entry `(k, v)` of `dict2` is written into it; when both `dict1[k]`
and `v` are dicts the value written is their recursive merge, otherwise
it is `v` itself.  `dict_merge_go d1 out l` processes the remaining
entries `l` of `dict2`. -/
def dict_merge_go (d1 out : Dict) : Dict → Dict
  | [] => out
  | (k, v) :: rest =>
    match lookupD d1 k, v with
    | some (Val.dict s1), Val.dict s2 =>
      dict_merge_go d1 (setKey out k (Val.dict (dict_merge_go s1 s1 s2))) rest
    | _, _ => dict_merge_go d1 (setKey out k v) rest
termination_by l => sizeOf l
decreasing_by
  all_goals (simp_wf; try omega)

/-- `_dict_merge(dict1, dict2)`: recursively merges the two dicts such
that values in `dict2` override values in `dict1`. -/
def dict_merge (d1 d2 : Dict) : Dict :=
  dict_merge_go d1 d1 d2

/-- The value `_dict_merge` writes for an overlay entry `(k, v)`:
the recursive merge when both `dict1[k]` and `v` are dicts, else `v`. -/
def mergeStep (d1 : Dict) (k : PStr) (v : Val) : Val :=
  match lookupD d1 k, v with
  | some (Val.dict s1), Val.dict s2 => Val.dict (dict_merge s1 s2)
  | _, _ => v

/-- A raised Python exception (or fuel exhaustion of the model).
`fuel` models Python's RecursionError: the recursion in the source is
unbounded and the model makes each recursive call consume one unit of
fuel.  The three `ValueError`s raised by `_search_crossreference` are
distinguished by their message: `rootEscape` ("Failed to resolve ..,
at root of tree"), `unresolvedReference` ("No such key"),
`typeMismatch` ("Value addressed by ... is not a dict").
`missingInclude` is the `ValueError` raised by `_import_include_params`
("No parameter file include found").  `attributeError`, `typeError`,
`keyError` and `indexError` model the corresponding built-in Python
exceptions. -/
inductive PyErr : Type where
  | fuel : PyErr
  | rootEscape : PyErr
  | unresolvedReference : PyErr
  | typeMismatch : PyErr
  | missingInclude : PyErr
  | attributeError : PyErr
  | typeError : PyErr
  | keyError : PyErr
  | indexError : PyErr
  deriving DecidableEq, Repr

/-- `_search_crossreference(cref, dict_stack)`.  The stack's last
element is the current tree level; its first element is the root.
Mirrors the source line by line:
* `cref.startswith("/")`: recurse with the same `cref` on
  `dict_stack[:1]` (the source does NOT strip the slash);
* `cref.startswith("../")`: at stack length 1 raise (RootEscape),
  else recurse on `cref[3:]` with `dict_stack[:-1]`;
* `"/" in cref`: take `k = cref.split("/")[0]`; absent key raises
  (UnresolvedReference); a non-dict value raises (TypeMismatch); else
  recurse on `cref[len(k)+1:]` with `dict_stack + [v]`;
* otherwise a single key: absent raises (UnresolvedReference), else
  return the value.
`dict_stack[-1]` on an empty stack would be an IndexError (never
reachable from `_resolve_crossreferences`). -/
def search_crossreference : Nat → PStr → List Dict → Except PyErr Val
  | 0, _, _ => .error .fuel
  | fuel + 1, cref, dict_stack =>
    if (s "/").isPrefixOf cref then
      search_crossreference fuel cref (dict_stack.take 1)
    else if (s "../").isPrefixOf cref then
      if dict_stack.length = 1 then .error .rootEscape
      else search_crossreference fuel (cref.drop 3) dict_stack.dropLast
    else
      match dict_stack.getLast? with
      | none => .error .indexError
      | some this_level_dict =>
        if cref.contains '/' then
          -- k = cref.split("/")[0]
          let k := cref.takeWhile (fun c => c ≠ '/')
          match lookupD this_level_dict k with
          | none => .error .unresolvedReference
          | some (Val.dict sub) =>
            search_crossreference fuel (cref.drop (k.length + 1))
              (dict_stack ++ [sub])
          | some _ => .error .typeMismatch
        else
          match lookupD this_level_dict cref with
          | none => .error .unresolvedReference
          | some v => .ok v

/-- The loop of `_resolve_crossreferences(d, stack)` over the items of
`d`, where `stack` already ends with `d` itself.  A string value whose
`find("@ref:")` is `0` (exactly: the string starts with the marker) is
replaced by the result of `_search_crossreference` on the rest of the
string; a dict value is recursed into with the stack extended by it;
anything else is kept.  The source mutates `d` in place; the model
rebuilds the dict.  (The stack snapshots the dicts as pushed; no claim
in scope exercises the aliasing of already-replaced values.) -/
def resolve_items (fuel : Nat) (stack : List Dict) : Dict → Except PyErr Dict
  | [] => .ok []
  | (k, v) :: rest =>
    match v with
    | Val.str sv =>
      if (s "@ref:").isPrefixOf sv then
        match search_crossreference fuel (sv.drop 5) stack with
        | .error e => .error e
        | .ok value =>
          match resolve_items fuel stack rest with
          | .error e => .error e
          | .ok r => .ok ((k, value) :: r)
      else
        match resolve_items fuel stack rest with
        | .error e => .error e
        | .ok r => .ok ((k, Val.str sv) :: r)
    | Val.dict c =>
      match resolve_items fuel (stack ++ [c]) c with
      | .error e => .error e
      | .ok c2 =>
        match resolve_items fuel stack rest with
        | .error e => .error e
        | .ok r => .ok ((k, Val.dict c2) :: r)
    | other =>
      match resolve_items fuel stack rest with
      | .error e => .error e
      | .ok r => .ok ((k, other) :: r)
termination_by l => sizeOf l
decreasing_by
  all_goals (simp_wf; try omega)

/-- `_resolve_crossreferences(d)`: entered with `stack = None`, so the
walk starts with `stack = [d]`. -/
def resolve_crossreferences (fuel : Nat) (d : Dict) : Except PyErr Dict :=
  resolve_items fuel [d] d

/-- The parameter-set store: `_load_params` reads
`run_params/<name>.json`; we model the file system as a name-indexed
list of parameter dicts. -/
abbrev Store := List (PStr × Dict)

/-- `_load_params(setup_name)`: `None` when the file does not exist. -/
def load_params : Store → PStr → Option Dict
  | [], _ => none
  | (n, d) :: rest, name => if n = name then some d else load_params rest name

/-- Python truthiness of a JSON value, as used by
`params.get("@include") or []`. -/
def isFalsy : Val → Bool
  | .null => true
  | .bool b => !b
  | .num n => n == 0
  | .str sv => sv.isEmpty
  | .arr xs => xs.isEmpty
  | .dict d => d.isEmpty

/-- Python iteration `for x in v`: lists yield their elements, strings
their one-character substrings, dicts their keys; anything else raises
TypeError. -/
def iterVal : Val → Except PyErr (List Val)
  | .arr xs => .ok xs
  | .str sv => .ok (sv.map fun c => Val.str [c])
  | .dict d => .ok (d.map fun kv => Val.str kv.1)
  | _ => .error .typeError

/-- The reserved include directive key. -/
def includeKey : PStr := s "@include"

/-- `includes = params.get("@include") or []`, then iterated:
an absent or falsy value contributes no includes. -/
def includesList (params : Dict) : Except PyErr (List Val) :=
  match lookupD params includeKey with
  | none => .ok []
  | some v => if isFalsy v then .ok [] else iterVal v

/-- The two mutually recursive activities of `_import_include_params`:
resolving one parameter dict (`imp`), and folding the loop
`for include in includes` over the remaining include names (`fold`),
with the accumulated `inherited_params`. -/
inductive ICall : Type where
  | imp : Dict → ICall
  | fold : List Val → Dict → ICall

/-- The recursion of `_import_include_params(params)`:
load each include from the store (a missing one raises ValueError),
recursively resolve its own includes, fold the results together with
`_dict_merge` (later includes override earlier ones), overlay `params`
itself on top, and delete the `@include` key from the result.  A
non-string include name would raise TypeError inside `_load_params`
(string concatenation with `".json"`).  Fuel models the unbounded
recursion through the store (circular includes are not detected). -/
def irun (store : Store) : Nat → ICall → Except PyErr Dict
  | 0, _ => .error .fuel
  | fuel + 1, .imp params =>
    match includesList params with
    | .error e => .error e
    | .ok incs =>
      match irun store fuel (.fold incs []) with
      | .error e => .error e
      | .ok inherited => .ok (eraseKey (dict_merge inherited params) includeKey)
  | fuel + 1, .fold [] acc => .ok acc
  | fuel + 1, .fold (inc :: rest) acc =>
    match inc with
    | Val.str name =>
      match load_params store name with
      | none => .error .missingInclude
      | some incl_params =>
        match irun store fuel (.imp incl_params) with
        | .error e => .error e
        | .ok ip => irun store fuel (.fold rest (dict_merge acc ip))
    | _ => .error .typeError

/-- `_import_include_params(params)`. -/
def import_include_params (store : Store) (fuel : Nat) (params : Dict) :
    Except PyErr Dict :=
  irun store fuel (.imp params)

/-- The loop of `initialize_parameters` over the setup names: each name
is loaded from the store; when the store returns `None` the source
prints "Whoops! Parameters not found" and then passes `None` straight
into `_import_include_params`, where `None.get("@include")` raises
AttributeError.  A found set has its includes resolved and is merged
over the accumulated parameters. -/
def init_names_loop (store : Store) (fuel : Nat) :
    List PStr → Dict → Except PyErr Dict
  | [], acc => .ok acc
  | name :: rest, acc =>
    match load_params store name with
    | none => .error .attributeError
    | some params =>
      match import_include_params store fuel params with
      | .error e => .error e
      | .ok p2 => init_names_loop store fuel rest (dict_merge acc p2)

/-- `initialize_parameters(setup_names)` (after the argument-form
dispatch has produced a list of names): fold the loop over the names,
resolve cross-references over the merged result, and derive the run
name — the source checks for an `experiment_name` key but then reads
`merged_params["run_name"]` (a KeyError when absent), else uses
"UntitledRun".  Returns the resolved parameters and the run name; the
conversion to a `recordclass` object and the run-log write are I/O
plumbing outside the modelled core. -/
def init_parameters (store : Store) (fuel : Nat) (setup_names : List PStr) :
    Except PyErr (Dict × Val) :=
  match init_names_loop store fuel setup_names [] with
  | .error e => .error e
  | .ok merged =>
    match resolve_crossreferences fuel merged with
    | .error e => .error e
    | .ok resolved =>
      if containsKey resolved (s "experiment_name") then
        match lookupD resolved (s "run_name") with
        | some v => .ok (resolved, v)
        | none => .error .keyError
      else .ok (resolved, Val.str (s "UntitledRun"))

/-- Python substring test `needle in hay` for strings. -/
def isSubstring (needle hay : PStr) : Bool :=
  (List.range (hay.length + 1)).any fun i => needle.isPrefixOf (hay.drop i)

/-- One element of the varargs tuple `*addr` of
`_get_parameter_from_dict`.  The caller passes string segments, but the
recursive call `_get_parameter_from_dict(d[addr[0]], addr[1:])` is
MISSING the `*` unpack (compare `get_parameter`, which has it), so
inside the recursion `addr` is the 1-tuple `(addr[1:],)`: the whole
remaining path packed into a single tuple element.  An element is
therefore either a string or a tuple of elements. -/
inductive PathArg : Type where
  | str : PStr → PathArg
  | tup : List PathArg → PathArg

/-- Python membership `addr[0] in d` as used by
`_get_parameter_from_dict`, for either kind of address element:
* on a dict, a string tests the keys; a tuple is hashable but never
  equals a string key of a JSON object, so the test is `False`;
* on a string, a string is a substring test, while a tuple raises
  TypeError (`'in <string>' requires string as left operand`);
* on a list, membership by equality: a string can equal a stored
  string, a tuple never equals any JSON value;
* numbers, booleans and `None` are not iterable: TypeError. -/
def pyContainsArg : Val → PathArg → Except PyErr Bool
  | Val.dict dd, PathArg.str k => .ok (containsKey dd k)
  | Val.dict _, PathArg.tup _ => .ok false
  | Val.str sv, PathArg.str k => .ok (isSubstring k sv)
  | Val.str _, PathArg.tup _ => .error .typeError
  | Val.arr xs, PathArg.str k =>
    .ok (xs.any fun x => match x with | Val.str t => t == k | _ => false)
  | Val.arr _, PathArg.tup _ => .ok false
  | _, _ => .error .typeError

/-- The indexing `d[addr[0]]` (reached only after the membership test
succeeded): a string key on a dict looks the value up (an absent key
would be a KeyError, as would a tuple key); indexing a string or a
list with a string or tuple raises TypeError. -/
def pyIndex : Val → PathArg → Except PyErr Val
  | Val.dict dd, PathArg.str k =>
    (match lookupD dd k with
     | some v => .ok v
     | none => .error .keyError)
  | Val.dict _, PathArg.tup _ => .error .keyError
  | _, _ => .error .typeError

/-- Termination measure for `_get_parameter_from_dict`: a recursive
call always passes a tuple-headed one-element address, and a
tuple-headed address never passes the membership test, so it never
recurses again. -/
def addrMeasure : List PathArg → Nat
  | [] => 0
  | PathArg.str _ :: _ => 2
  | PathArg.tup _ :: _ => 1

/-- `_get_parameter_from_dict(d, *addr)`: an empty address returns `d`
itself; otherwise, if `addr[0] not in d` the source prints a diagnostic
and returns `None` (modelled as `Val.null`, which is what JSON `null`
loads as); else it calls itself on `d[addr[0]]` with `addr[1:]` passed
as ONE positional argument — the missing `*` of the source — so the
recursive address is `[PathArg.tup rest]`. -/
def get_parameter_from_dict : Val → List PathArg → Except PyErr Val
  | d, [] => .ok d
  | d, a0 :: rest =>
    match hc : pyContainsArg d a0 with
    | .error e => .error e
    | .ok false => .ok Val.null
    | .ok true =>
      match pyIndex d a0 with
      | .error e => .error e
      | .ok v => get_parameter_from_dict v [PathArg.tup rest]
termination_by d l => addrMeasure l
decreasing_by
  cases a0 with
  | str t => simp [addrMeasure]
  | tup l => cases d <;> simp [pyContainsArg] at hc

/-- `get_parameter(*addr)` over the published parameter dict: the
caller-side call (line 232) does unpack the address, so the segments
arrive as individual string elements. -/
def get_parameter (params : Dict) (addr : List PStr) : Except PyErr Val :=
  get_parameter_from_dict (Val.dict params) (addr.map PathArg.str)

/-! ## A heap model of `_dict_merge` for the mutation claim

To state that `_dict_merge` never mutates its first argument we embed
the function a second time over an explicit heap of dict objects:
`HVal.ref a` is a Python reference to the dict object stored at address
`a` of the heap.  `outdict = dict1.copy()` allocates a fresh object; the
only writes, `outdict[k] = ...`, target that fresh object. -/

/-- A heap-resident JSON value: dicts are referenced by address. -/
inductive HVal : Type where
  | null : HVal
  | bool : Bool → HVal
  | num : Int → HVal
  | str : PStr → HVal
  | arr : List HVal → HVal
  | ref : Nat → HVal

/-- A dict object's contents. -/
abbrev HDict := List (PStr × HVal)

/-- The heap: dict objects addressed by position. -/
abbrev Heap := List HDict

/-- `d[k]` on a heap dict. -/
def lookupH : HDict → PStr → Option HVal
  | [], _ => none
  | (k', v) :: rest, k => if k' = k then some v else lookupH rest k

/-- `d[k] = v` on a heap dict (replace in place or append). -/
def setKeyH : HDict → PStr → HVal → HDict
  | [], k, v => [(k, v)]
  | (k', v') :: rest, k, v =>
    if k' = k then (k', v) :: rest else (k', v') :: setKeyH rest k v

/-- The store `obj[k] = v` for the object at address `a`. -/
def heapSet (h : Heap) (a : Nat) (k : PStr) (v : HVal) : Option Heap :=
  match h[a]? with
  | none => none
  | some d => some (h.set a (setKeyH d k v))

/-- The two activities of the heap-level `_dict_merge`: merging the
objects at two addresses, and the loop over the remaining items of
`dict2` writing into the freshly allocated `outdict` at address
`out`. -/
inductive MCall : Type where
  | merge : Nat → Nat → MCall
  | go : Nat → Nat → HDict → MCall

/-- The test `k in dict1 and isinstance(dict1[k], dict) and
isinstance(v, dict)` of the merge loop, in the heap model: both
`dict1[k]` and the overlay value must be dict references; on success
returns the two referenced addresses. -/
def bothRefs : Option HVal → HVal → Option (Nat × Nat)
  | some (HVal.ref s1), HVal.ref s2 => some (s1, s2)
  | _, _ => none

/-- Heap-level `_dict_merge(dict1, dict2)` (fuelled): `merge a1 a2`
reads both objects, allocates `outdict = dict1.copy()` at the end of
the heap, and runs the loop; the loop writes `outdict[k]`, recursively
merging when both `dict1[k]` and the overlay value are dict
references. -/
def hrun : Nat → Heap → MCall → Option (Heap × Nat)
  | 0, _, _ => none
  | fuel + 1, h, .merge a1 a2 => do
    let d1 ← h[a1]?
    let d2 ← h[a2]?
    hrun fuel (h ++ [d1]) (.go a1 h.length d2)
  | fuel + 1, h, .go _ out [] => some (h, out)
  | fuel + 1, h, .go a1 out ((k, v) :: rest) => do
    let d1 ← h[a1]?
    match bothRefs (lookupH d1 k) v with
    | some (s1, s2) => do
      let hm ← hrun fuel h (.merge s1 s2)
      let h3 ← heapSet hm.1 out k (HVal.ref hm.2)
      hrun fuel h3 (.go a1 out rest)
    | none => do
      let h2 ← heapSet h out k v
      hrun fuel h2 (.go a1 out rest)

/-! ## Claim-side predicates and concrete inputs -/

/-- The spec's root-reference example tree `{a: {b: 1}, c: "@ref:/a/b"}`. -/
def rootRefTree : Dict :=
  [(s "a", Val.dict [(s "b", Val.num 1)]),
   (s "c", Val.str (s "@ref:/a/b"))]

/-- The spec's relative-reference example tree
`{a: {b: 1, c: "@ref:../a/b"}}`. -/
def relRefTree : Dict :=
  [(s "a", Val.dict [(s "b", Val.num 1),
                     (s "c", Val.str (s "@ref:../a/b"))])]

/-- A store with `A = {k: {x: 1}}` and `B = {k: {y: 2}}` (both include
targets define `k` as a nested tree). -/
def storeAB : Store :=
  [(s "A", [(s "k", Val.dict [(s "x", Val.num 1)])]),
   (s "B", [(s "k", Val.dict [(s "y", Val.num 2)])])]

/-- A store with scalar values only: `A = {k: 1, j: 5}`, `B = {k: 2}`. -/
def storeScalar : Store :=
  [(s "A", [(s "k", Val.num 1), (s "j", Val.num 5)]),
   (s "B", [(s "k", Val.num 2)])]

/-- A heap holding `dict1 = {a: {x: 1, y: 2}}` (addresses 0, 1) and
`dict2 = {a: {y: 3, z: 4}}` (addresses 2, 3). -/
def exHeap : Heap :=
  [[(s "a", HVal.ref 1)],
   [(s "x", HVal.num 1), (s "y", HVal.num 2)],
   [(s "a", HVal.ref 3)],
   [(s "y", HVal.num 3), (s "z", HVal.num 4)]]

/-- The heap produced by merging addresses 0 and 2 of `exHeap`: the four
original objects are untouched; the merged dict lives at address 4 with
its nested merged dict at address 5. -/
def exHeap2 : Heap :=
  exHeap ++
    [[(s "a", HVal.ref 5)],
     [(s "x", HVal.num 1), (s "y", HVal.num 3), (s "z", HVal.num 4)]]

/-! ## Helper lemmas about the dict primitives and `_dict_merge` -/

theorem lookupD_setKey_self (d : Dict) (k : PStr) (v : Val) :
    lookupD (setKey d k v) k = some v := by
  induction d with
  | nil => simp [setKey, lookupD]
  | cons hd tl ih =>
    obtain ⟨k', v'⟩ := hd
    by_cases h : k' = k <;> simp [setKey, lookupD, h, ih]

theorem lookupD_setKey_ne (d : Dict) (k k' : PStr) (v : Val) (h : k ≠ k') :
    lookupD (setKey d k v) k' = lookupD d k' := by
  induction d with
  | nil => simp [setKey, lookupD, h]
  | cons hd tl ih =>
    obtain ⟨k'', v''⟩ := hd
    by_cases h2 : k'' = k
    · subst h2; simp [setKey, lookupD, h]
    · simp [setKey, lookupD, h2, ih]

theorem setKey_of_lookup_none (d : Dict) (k : PStr) (v : Val)
    (h : lookupD d k = none) : setKey d k v = d ++ [(k, v)] := by
  induction d with
  | nil => simp [setKey]
  | cons hd tl ih =>
    obtain ⟨k', v'⟩ := hd
    by_cases h2 : k' = k
    · simp [lookupD, h2] at h
    · simp [lookupD, h2] at h
      simp [setKey, h2, ih h]

theorem lookupD_append_of_none (l1 l2 : Dict) (k : PStr)
    (h : lookupD l1 k = none) : lookupD (l1 ++ l2) k = lookupD l2 k := by
  induction l1 with
  | nil => simp
  | cons hd tl ih =>
    obtain ⟨k', v'⟩ := hd
    by_cases h2 : k' = k
    · simp [lookupD, h2] at h
    · simp [lookupD, h2] at h ⊢
      exact ih h

theorem lookupD_eraseKey_self (d : Dict) (k : PStr) :
    lookupD (eraseKey d k) k = none := by
  induction d with
  | nil => simp [eraseKey, lookupD]
  | cons hd tl ih =>
    obtain ⟨k', v'⟩ := hd
    by_cases h : k' = k <;> simp [eraseKey, lookupD, h, ih]

theorem lookupD_eraseKey_ne (d : Dict) (k k' : PStr) (h : k' ≠ k) :
    lookupD (eraseKey d k) k' = lookupD d k' := by
  induction d with
  | nil => simp [eraseKey]
  | cons hd tl ih =>
    obtain ⟨k'', v''⟩ := hd
    by_cases h2 : k'' = k
    · subst h2
      have hne : ¬ (k'' = k') := fun hh => h hh.symm
      simp [eraseKey, lookupD, hne, ih]
    · by_cases h3 : k'' = k'
      · simp [eraseKey, lookupD, h2, h3, h]
      · simp [eraseKey, lookupD, h2, h3, ih]

theorem lookupD_eq_none_of_not_mem_keys (d : Dict) (k : PStr)
    (h : k ∉ keysD d) : lookupD d k = none := by
  induction d with
  | nil => rfl
  | cons hd tl ih =>
    obtain ⟨k', v'⟩ := hd
    have h1 : ¬ (k' = k) := fun he => h (he ▸ List.mem_cons_self _ _)
    have h2 : k ∉ keysD tl := fun hm => h (List.mem_cons_of_mem _ hm)
    simp [lookupD, h1, ih h2]

theorem dict_merge_go_cons (d1 out : Dict) (k : PStr) (v : Val) (rest : Dict) :
    dict_merge_go d1 out ((k, v) :: rest)
      = dict_merge_go d1 (setKey out k (mergeStep d1 k v)) rest := by
  rcases hv : lookupD d1 k with _ | w
  · cases v <;> simp [dict_merge_go, mergeStep, hv]
  · cases w <;> cases v <;> simp [dict_merge_go, mergeStep, hv, dict_merge]

theorem dict_merge_go_lookup_of_none (d1 : Dict) (k : PStr) :
    ∀ (l : Dict) (out : Dict), lookupD l k = none →
      lookupD (dict_merge_go d1 out l) k = lookupD out k := by
  intro l
  induction l with
  | nil => intro out _; simp [dict_merge_go]
  | cons hd tl ih =>
    intro out h
    obtain ⟨k', v'⟩ := hd
    by_cases h2 : k' = k
    · simp [lookupD, h2] at h
    · simp [lookupD, h2] at h
      rw [dict_merge_go_cons, ih _ h, lookupD_setKey_ne _ _ _ _ h2]

theorem dict_merge_go_lookup_of_some (d1 : Dict) (k : PStr) (v : Val) :
    ∀ (l : Dict) (out : Dict), keysNodup l → lookupD l k = some v →
      lookupD (dict_merge_go d1 out l) k = some (mergeStep d1 k v) := by
  intro l
  induction l with
  | nil => intro out _ h; simp [lookupD] at h
  | cons hd tl ih =>
    intro out hnd h
    obtain ⟨k', v'⟩ := hd
    have hnd' := List.nodup_cons.mp hnd
    by_cases h2 : k' = k
    · subst h2
      simp [lookupD] at h
      subst h
      rw [dict_merge_go_cons,
        dict_merge_go_lookup_of_none _ _ _ _
          (lookupD_eq_none_of_not_mem_keys _ _ hnd'.1),
        lookupD_setKey_self]
    · simp [lookupD, h2] at h
      rw [dict_merge_go_cons]
      exact ih _ hnd'.2 h

theorem mergeStep_eq_self (b : Dict) (k : PStr) (v : Val)
    (h : (∀ s1, lookupD b k ≠ some (Val.dict s1)) ∨ (∀ s2, v ≠ Val.dict s2)) :
    mergeStep b k v = v := by
  rcases hb : lookupD b k with _ | w
  · cases v <;> simp [mergeStep, hb]
  · cases w <;> cases v <;>
      first
        | ((rcases h with hL | hR) <;>
            first
              | exact absurd hb (hL _)
              | exact absurd rfl (hR _))
        | simp [mergeStep, hb]

theorem mergeStep_nil (k : PStr) (v : Val) : mergeStep [] k v = v := by
  cases v <;> simp [mergeStep, lookupD]

theorem dict_merge_go_nil_append :
    ∀ (l acc : Dict), keysNodup l → (∀ p ∈ l, lookupD acc p.1 = none) →
      dict_merge_go [] acc l = acc ++ l := by
  intro l
  induction l with
  | nil => intro acc _ _; simp [dict_merge_go]
  | cons hd tl ih =>
    intro acc hnd hacc
    obtain ⟨k, v⟩ := hd
    have hnd' := List.nodup_cons.mp hnd
    rw [dict_merge_go_cons, mergeStep_nil,
      setKey_of_lookup_none _ _ _ (hacc (k, v) (List.mem_cons_self _ _))]
    rw [ih _ hnd'.2 ?_]
    · simp
    · intro p hp
      rw [lookupD_append_of_none _ _ _ (hacc p (List.mem_cons_of_mem _ hp))]
      have hpk : ¬ (k = p.1) := by
        intro he
        apply hnd'.1
        rw [he]
        exact List.mem_map.mpr ⟨p, hp, rfl⟩
      simp [lookupD, hpk]

theorem dict_merge_nil_left (d : Dict) (h : keysNodup d) :
    dict_merge [] d = d := by
  have := dict_merge_go_nil_append d [] h (fun p _ => rfl)
  simpa [dict_merge] using this

/-! ## C3: merge is right-biased and recursive -/

/-- C3: `_dict_merge` is right-biased and recursive: a key only in
`base` keeps `base`'s value; a key in both whose two values are nested
dicts is merged recursively; any other key present in `overlay` gets
`overlay`'s value; and concretely
`merge({a:{x:1,y:2}}, {a:{y:3,z:4}}) = {a:{x:1,y:3,z:4}}`. -/
theorem C3_merge_right_biased_recursive :
    (∀ (b o : Dict) (k : PStr), lookupD o k = none →
      lookupD (dict_merge b o) k = lookupD b k)
    ∧ (∀ (b o : Dict) (k : PStr) (s1 s2 : Dict), keysNodup o →
      lookupD b k = some (Val.dict s1) → lookupD o k = some (Val.dict s2) →
      lookupD (dict_merge b o) k = some (Val.dict (dict_merge s1 s2)))
    ∧ (∀ (b o : Dict) (k : PStr) (v : Val), keysNodup o →
      lookupD o k = some v →
      ((∀ s1, lookupD b k ≠ some (Val.dict s1)) ∨ (∀ s2, v ≠ Val.dict s2)) →
      lookupD (dict_merge b o) k = some v)
    ∧ dict_merge [(s "a", Val.dict [(s "x", Val.num 1), (s "y", Val.num 2)])]
        [(s "a", Val.dict [(s "y", Val.num 3), (s "z", Val.num 4)])]
      = [(s "a", Val.dict [(s "x", Val.num 1), (s "y", Val.num 3),
          (s "z", Val.num 4)])] := by
  refine ⟨?_, ?_, ?_, ?_⟩
  · intro b o k h
    exact dict_merge_go_lookup_of_none b k o b h
  · intro b o k s1 s2 hnd hb ho
    rw [dict_merge, dict_merge_go_lookup_of_some b k _ o b hnd ho]
    simp [mergeStep, hb]
  · intro b o k v hnd ho hnb
    rw [dict_merge, dict_merge_go_lookup_of_some b k _ o b hnd ho,
      mergeStep_eq_self b k v hnb]
  · simp [dict_merge, dict_merge_go, setKey, lookupD, s]

/-- Witness for C3 at concrete inputs: a key only in base survives, two
nested dicts merge recursively, and a scalar overlay value wins. -/
theorem C3_merge_right_biased_recursive_witness :
    lookupD (dict_merge [(s "a", Val.num 1)] [(s "b", Val.num 2)]) (s "a")
        = some (Val.num 1)
    ∧ lookupD (dict_merge [(s "a", Val.dict [(s "x", Val.num 1)])]
        [(s "a", Val.dict [(s "y", Val.num 2)])]) (s "a")
        = some (Val.dict (dict_merge [(s "x", Val.num 1)]
            [(s "y", Val.num 2)]))
    ∧ lookupD (dict_merge [(s "a", Val.num 1)] [(s "a", Val.num 3)]) (s "a")
        = some (Val.num 3) := by
  refine ⟨?_, ?_, ?_⟩
  · exact C3_merge_right_biased_recursive.1 _ _ _ (by rfl)
  · exact C3_merge_right_biased_recursive.2.1 _ _ _ _ _ (by decide)
      (by rfl) (by rfl)
  · exact C3_merge_right_biased_recursive.2.2.1 _ _ _ _ (by decide)
      (by rfl) (Or.inr (fun s2 h => nomatch h))

/-! ## Stepping lemmas for the include-resolution recursion -/

theorem irun_imp_ok (store : Store) (fuel : Nat) (params : Dict)
    (incs : List Val) (inherited : Dict)
    (h1 : includesList params = .ok incs)
    (h2 : irun store fuel (.fold incs []) = .ok inherited) :
    irun store (fuel + 1) (.imp params)
      = .ok (eraseKey (dict_merge inherited params) includeKey) := by
  simp only [irun, h1, h2]

theorem irun_fold_nil (store : Store) (fuel : Nat) (acc : Dict) :
    irun store (fuel + 1) (.fold [] acc) = .ok acc := by
  simp only [irun]

theorem irun_fold_cons_ok (store : Store) (fuel : Nat) (name : PStr)
    (rest : List Val) (acc ip ip2 : Dict) (r : Except PyErr Dict)
    (h1 : load_params store name = some ip)
    (h2 : irun store fuel (.imp ip) = .ok ip2)
    (h3 : irun store fuel (.fold rest (dict_merge acc ip2)) = r) :
    irun store (fuel + 1) (.fold (Val.str name :: rest) acc) = r := by
  simp only [irun, h1, h2]
  exact h3

/-! ## C10: a falsy `@include` value acts exactly like an absent one -/

/-- C10: when the `@include` key is absent, or present with any falsy
value (`null`, `false`, `0`, `""`, `[]`, `{}`), include resolution loads
nothing from the store (the result does not depend on the store at all),
passes the tree's own keys through unchanged, and removes the
`@include` key itself. -/
theorem C10_falsy_include_like_absent :
    ∀ (store : Store) (fuel : Nat) (params : Dict), 1 ≤ fuel →
      keysNodup params →
      (lookupD params includeKey = none ∨
        ∃ v, lookupD params includeKey = some v ∧ isFalsy v = true) →
      import_include_params store (fuel + 1) params
        = .ok (eraseKey params includeKey) := by
  intro store fuel params hf hnd hinc
  obtain ⟨f, rfl⟩ : ∃ f, fuel = f + 1 := ⟨fuel - 1, by omega⟩
  have hlist : includesList params = .ok [] := by
    rcases hinc with h | ⟨v, hv, hfv⟩
    · simp [includesList, h]
    · simp [includesList, hv, hfv]
  show irun store (f + 1 + 1) (.imp params) = _
  rw [irun_imp_ok store (f + 1) params [] [] hlist (irun_fold_nil store f []),
    dict_merge_nil_left params hnd]

/-- Witness for C10: a tree with `@include: null` and one ordinary key
resolves, over an empty store, to the tree with only that key. -/
theorem C10_falsy_include_like_absent_witness :
    import_include_params [] 2 [(includeKey, Val.null), (s "a", Val.num 7)]
      = .ok (eraseKey [(includeKey, Val.null), (s "a", Val.num 7)]
          includeKey) :=
  C10_falsy_include_like_absent [] 1 _ (by omega) (by decide)
    (Or.inr ⟨Val.null, by rfl, rfl⟩)

/-! ## C8: where the `@include` key is absent after resolution -/

/-- Counterexample to C8 as stated: include resolution only deletes the
TOP-LEVEL `@include` key.  The tree `{a: {"@include": []}}` resolves to
itself, and its nested mapping `{@include: []}` still contains the
`@include` key. -/
theorem C8_counterexample :
    import_include_params [] 2 [(s "a", Val.dict [(includeKey, Val.arr [])])]
      = .ok [(s "a", Val.dict [(includeKey, Val.arr [])])]
    ∧ lookupD [(s "a", Val.dict [(includeKey, Val.arr [])])] (s "a")
      = some (Val.dict [(includeKey, Val.arr [])])
    ∧ containsKey [(includeKey, Val.arr [])] includeKey = true := by
  refine ⟨?_, by rfl, by rfl⟩
  simp [import_include_params, irun, includesList, lookupD, includeKey, s,
    isFalsy, dict_merge, dict_merge_go, setKey, eraseKey]

/-- C8 (amended): every tree that include resolution outputs has no
`@include` key at its top level (nested mappings may keep one). -/
theorem C8_include_absent_top_level :
    ∀ (store : Store) (fuel : Nat) (params out : Dict),
      import_include_params store fuel params = .ok out →
      lookupD out includeKey = none := by
  intro store fuel params out h
  cases fuel with
  | zero => exact absurd h (by simp [import_include_params, irun])
  | succ f =>
    simp only [import_include_params, irun] at h
    rcases hl : includesList params with e | incs
    · rw [hl] at h
      simp at h
    · rw [hl] at h
      simp only [Except.ok.injEq] at h
      rcases hr : irun store f (.fold incs []) with e | inh
      · rw [hr] at h
        simp at h
      · rw [hr] at h
        simp only [Except.ok.injEq] at h
        rw [← h]
        exact lookupD_eraseKey_self _ _

/-- Witness for C8 (amended) at a concrete input. -/
theorem C8_include_absent_top_level_witness :
    lookupD [(s "a", Val.num 1)] includeKey = none :=
  C8_include_absent_top_level [] 2 [(s "a", Val.num 1)] [(s "a", Val.num 1)]
    (by simp [import_include_params, irun, includesList, lookupD, includeKey,
      s, dict_merge, dict_merge_go, setKey, eraseKey])

/-! ## C4: include override order -/

/-- Counterexample to C4 as stated: with `A = {k: {x: 1}}` and
`B = {k: {y: 2}}`, a set `C = {"@include": ["A", "B"]}` (which does not
define `k` itself) resolves `k` to the recursive merge
`{x: 1, y: 2}` of the two nested trees, not to `B`'s value
`{y: 2}`. -/
theorem C4_counterexample :
    import_include_params storeAB 10
        [(includeKey, Val.arr [Val.str (s "A"), Val.str (s "B")])]
      = .ok [(s "k", Val.dict [(s "x", Val.num 1), (s "y", Val.num 2)])]
    ∧ Val.dict [(s "x", Val.num 1), (s "y", Val.num 2)]
      ≠ Val.dict [(s "y", Val.num 2)] := by
  constructor
  · simp [import_include_params, irun, includesList, iterVal, isFalsy,
      lookupD, includeKey, s, load_params, dict_merge, dict_merge_go, setKey,
      eraseKey, storeAB]
  · intro h
    injection h with h1
    simp at h1

/-- C4 (amended): if `C`'s include list is `[A, B]` and both resolve,
the resolved `C` is `C`'s own keys merged over `B`'s resolution merged
over `A`'s; consequently, for a key `k` that `C` does not define and
both `A` and `B` define, the resolved value is `B`'s — provided `A`'s
and `B`'s values are not both nested trees (in that case it is their
recursive merge); and for a key `k` that `C` defines, the resolved
value is `C`'s own — provided `C`'s value and the inherited value are
not both nested trees (in that case it is the inherited tree merged
under `C`'s). -/
theorem C4_include_override_order :
    ∀ (store : Store) (f : Nat) (nA nB : PStr) (aT bT cT aR bR : Dict)
      (k : PStr), 1 ≤ f →
      lookupD cT includeKey = some (Val.arr [Val.str nA, Val.str nB]) →
      load_params store nA = some aT →
      load_params store nB = some bT →
      import_include_params store (f + 1) aT = .ok aR →
      import_include_params store f bT = .ok bR →
      k ≠ includeKey → keysNodup aR → keysNodup bR → keysNodup cT →
      import_include_params store (f + 3) cT
        = .ok (eraseKey (dict_merge (dict_merge (dict_merge [] aR) bR) cT)
            includeKey)
      ∧ (∀ va vb, lookupD cT k = none → lookupD aR k = some va →
          lookupD bR k = some vb →
          ((∀ s1, va ≠ Val.dict s1) ∨ (∀ s2, vb ≠ Val.dict s2)) →
          lookupD (eraseKey (dict_merge (dict_merge (dict_merge [] aR) bR) cT)
            includeKey) k = some vb)
      ∧ (∀ vc, lookupD cT k = some vc →
          ((∀ s1, lookupD (dict_merge (dict_merge [] aR) bR) k
              ≠ some (Val.dict s1)) ∨ (∀ s2, vc ≠ Val.dict s2)) →
          lookupD (eraseKey (dict_merge (dict_merge (dict_merge [] aR) bR) cT)
            includeKey) k = some vc) := by
  intro store f nA nB aT bT cT aR bR k hf hinc hA hB haR hbR hk hndA hndB hndC
  obtain ⟨g, rfl⟩ : ∃ g, f = g + 1 := ⟨f - 1, by omega⟩
  simp only [import_include_params] at haR hbR ⊢
  refine ⟨?_, ?_, ?_⟩
  · show irun store (g + 1 + 2 + 1) (.imp cT) = _
    refine irun_imp_ok store (g + 1 + 2) cT [Val.str nA, Val.str nB] _
      (by simp [includesList, hinc, isFalsy, iterVal]) ?_
    refine irun_fold_cons_ok store (g + 1 + 1) nA [Val.str nB] [] aT aR _
      hA haR ?_
    refine irun_fold_cons_ok store (g + 1) nB [] (dict_merge [] aR) bT bR _
      hB hbR ?_
    exact irun_fold_nil store g _
  · intro va vb hc ha hb hnb
    have hm : lookupD (dict_merge [] aR) k = some va := by
      rw [dict_merge, dict_merge_go_lookup_of_some [] k va aR [] hndA ha,
        mergeStep_nil]
    rw [lookupD_eraseKey_ne _ _ _ hk,
      dict_merge, dict_merge_go_lookup_of_none _ k cT _ hc]
    show lookupD (dict_merge (dict_merge [] aR) bR) k = some vb
    rw [dict_merge, dict_merge_go_lookup_of_some _ k vb bR _ hndB hb,
      mergeStep_eq_self _ k vb ?_]
    rcases hnb with h1 | h2
    · refine Or.inl (fun s1 hcontra => ?_)
      rw [hm] at hcontra
      injection hcontra with hva
      exact h1 s1 hva
    · exact Or.inr h2
  · intro vc hc hnb
    rw [lookupD_eraseKey_ne _ _ _ hk,
      dict_merge, dict_merge_go_lookup_of_some _ k vc cT _ hndC hc,
      mergeStep_eq_self _ k vc hnb]

/-- Witness for C4 (amended): with scalar values `A = {k: 1, j: 5}`,
`B = {k: 2}` and `C = {"@include": ["A", "B"], m: 3}`, the resolved
value of `k` is `B`'s value `2`. -/
theorem C4_include_override_order_witness :
    lookupD (eraseKey (dict_merge (dict_merge (dict_merge []
        [(s "k", Val.num 1), (s "j", Val.num 5)]) [(s "k", Val.num 2)])
        [(includeKey, Val.arr [Val.str (s "A"), Val.str (s "B")]),
         (s "m", Val.num 3)]) includeKey) (s "k") = some (Val.num 2) := by
  have h := C4_include_override_order storeScalar 2 (s "A") (s "B")
    [(s "k", Val.num 1), (s "j", Val.num 5)] [(s "k", Val.num 2)]
    [(includeKey, Val.arr [Val.str (s "A"), Val.str (s "B")]),
     (s "m", Val.num 3)]
    [(s "k", Val.num 1), (s "j", Val.num 5)] [(s "k", Val.num 2)]
    (s "k") (by omega) (by rfl) (by rfl) (by rfl)
    (by simp [import_include_params, irun, includesList, lookupD, includeKey,
      s, isFalsy, dict_merge, dict_merge_go, setKey, eraseKey, storeScalar,
      load_params])
    (by simp [import_include_params, irun, includesList, lookupD, includeKey,
      s, isFalsy, dict_merge, dict_merge_go, setKey, eraseKey, storeScalar,
      load_params])
    (by decide) (by decide) (by decide) (by decide)
  exact h.2.1 (Val.num 1) (Val.num 2) (by rfl) (by rfl) (by rfl)
    (Or.inr (fun s2 hh => nomatch hh))

/-! ## C1: root references never terminate -/

/-- Any path expression beginning with `/` exhausts every amount of
fuel: the source re-enters `_search_crossreference` with the very same
expression (the slash is never stripped), so the recursion never ends
(a RecursionError in Python). -/
theorem search_slash_all_fuel :
    ∀ (fuel : Nat) (rest : PStr) (stack : List Dict),
      search_crossreference fuel ('/' :: rest) stack = .error .fuel := by
  intro fuel
  induction fuel with
  | zero => intro rest stack; rfl
  | succ f ih =>
    intro rest stack
    have hp : (s "/").isPrefixOf ('/' :: rest) = true := by
      simp [s, List.isPrefixOf]
    simp [search_crossreference, hp, ih]

/-- C1 (evaluating the code at the spec's own example): resolving the
tree `{a: {b: 1}, c: "@ref:/a/b"}` never terminates — for every fuel
bound the model reports fuel exhaustion (Python: RecursionError),
because the `/`-branch of `_search_crossreference` restarts on the same
expression without stripping the slash. -/
theorem C1_root_reference_diverges :
    ∀ fuel : Nat, resolve_crossreferences fuel rootRefTree = .error .fuel := by
  intro fuel
  have hsearch : search_crossreference fuel ['/', 'a', '/', 'b']
      [[(['a'], Val.dict [(['b'], Val.num 1)]),
        (['c'], Val.str ['@', 'r', 'e', 'f', ':', '/', 'a', '/', 'b'])]]
      = .error .fuel := search_slash_all_fuel fuel _ _
  simp [resolve_crossreferences, resolve_items, rootRefTree, s, hsearch,
    List.isPrefixOf, List.drop]

/-! ## C5: relative references -/

/-- C5: a `../` step removes the top (last) element of the dict stack
and retries the rest of the expression; and concretely, resolving
`{a: {b: 1, c: "@ref:../a/b"}}` replaces `c` by `1`. -/
theorem C5_relative_reference :
    (∀ (fuel : Nat) (rest : PStr) (d1 d2 : Dict) (stack : List Dict),
      search_crossreference (fuel + 1) ('.' :: '.' :: '/' :: rest)
          (d1 :: d2 :: stack)
        = search_crossreference fuel rest (List.dropLast (d1 :: d2 :: stack)))
    ∧ resolve_crossreferences 10 relRefTree
      = .ok [(s "a", Val.dict [(s "b", Val.num 1), (s "c", Val.num 1)])] := by
  constructor
  · intro fuel rest d1 d2 stack
    have h1 : (s "/").isPrefixOf ('.' :: '.' :: '/' :: rest) = false := by
      simp [s, List.isPrefixOf]
    have h2 : (s "../").isPrefixOf ('.' :: '.' :: '/' :: rest) = true := by
      simp [s, List.isPrefixOf]
    have h3 : List.drop 3 ('.' :: '.' :: '/' :: rest) = rest := rfl
    simp [search_crossreference, h1, h2, h3]
  · simp [resolve_crossreferences, resolve_items, search_crossreference,
      relRefTree, lookupD, s, List.isPrefixOf]

/-! ## C6: the three lookup errors, and their propagation -/

theorem isPrefixOf_append_self (l t : List Char) :
    l.isPrefixOf (l ++ t) = true :=
  List.isPrefixOf_iff_prefix.mpr (List.prefix_append l t)

/-- C6: `../` at a one-element stack yields the root-escape error; an
absent key (as final segment or as intermediate segment) yields the
unresolved-reference error; a non-dict value at an intermediate segment
yields the type-mismatch error; and any error of the search propagates
out of `_resolve_crossreferences` unchanged (shown for a reference in
the first position of the dict being resolved). -/
theorem C6_lookup_errors :
    (∀ (fuel : Nat) (rest : PStr) (d : Dict),
      search_crossreference (fuel + 1) ('.' :: '.' :: '/' :: rest) [d]
        = .error .rootEscape)
    ∧ (∀ (fuel : Nat) (d : Dict), lookupD d (s "x") = none →
      search_crossreference (fuel + 1) (s "x") [d]
          = .error .unresolvedReference
      ∧ search_crossreference (fuel + 1) (s "x/y") [d]
          = .error .unresolvedReference)
    ∧ (∀ (fuel : Nat) (d : Dict) (v : Val), lookupD d (s "x") = some v →
      (∀ sub, v ≠ Val.dict sub) →
      search_crossreference (fuel + 1) (s "x/y") [d] = .error .typeMismatch)
    ∧ (∀ (fuel : Nat) (kk : PStr) (sv : PStr) (rest : Dict) (e : PyErr),
      search_crossreference fuel sv
          [(kk, Val.str ((s "@ref:") ++ sv)) :: rest] = .error e →
      resolve_crossreferences fuel ((kk, Val.str ((s "@ref:") ++ sv)) :: rest)
        = .error e) := by
  refine ⟨?_, ?_, ?_, ?_⟩
  · intro fuel rest d
    have h1 : (s "/").isPrefixOf ('.' :: '.' :: '/' :: rest) = false := by
      simp [s, List.isPrefixOf]
    have h2 : (s "../").isPrefixOf ('.' :: '.' :: '/' :: rest) = true := by
      simp [s, List.isPrefixOf]
    simp [search_crossreference, h1, h2]
  · intro fuel d hx
    have hu1 : search_crossreference (fuel + 1) (s "x") [d]
        = (match lookupD d (s "x") with
           | none => Except.error PyErr.unresolvedReference
           | some v => Except.ok v) := rfl
    have hu2 : search_crossreference (fuel + 1) (s "x/y") [d]
        = (match lookupD d (s "x") with
           | none => Except.error PyErr.unresolvedReference
           | some (Val.dict sub) =>
               search_crossreference fuel (s "y") [d, sub]
           | some _ => Except.error PyErr.typeMismatch) := rfl
    constructor
    · rw [hu1, hx]
    · rw [hu2, hx]
  · intro fuel d v hx hnd
    have hu2 : search_crossreference (fuel + 1) (s "x/y") [d]
        = (match lookupD d (s "x") with
           | none => Except.error PyErr.unresolvedReference
           | some (Val.dict sub) =>
               search_crossreference fuel (s "y") [d, sub]
           | some _ => Except.error PyErr.typeMismatch) := rfl
    rw [hu2, hx]
    cases v with
    | dict sub => exact absurd rfl (hnd sub)
    | null => rfl
    | bool b => rfl
    | num n => rfl
    | str t => rfl
    | arr xs => rfl
  · intro fuel kk sv rest e hs
    have hp : (s "@ref:").isPrefixOf ((s "@ref:") ++ sv) = true :=
      isPrefixOf_append_self _ _
    have hd : ((s "@ref:") ++ sv).drop 5 = sv := rfl
    simp [resolve_crossreferences, resolve_items, hp, hd, hs]

/-- Witness for C6: each error produced at a concrete input, and the
root-escape error propagating out of a whole resolution. -/
theorem C6_lookup_errors_witness :
    search_crossreference 1 (s "../a") [[]] = .error .rootEscape
    ∧ search_crossreference 1 (s "x") [[(s "z", Val.num 1)]]
        = .error .unresolvedReference
    ∧ search_crossreference 1 (s "x/y") [[(s "x", Val.num 5)]]
        = .error .typeMismatch
    ∧ resolve_crossreferences 1 [(s "c", Val.str (s "@ref:../a"))]
        = .error .rootEscape := by
  refine ⟨?_, ?_, ?_, ?_⟩
  · exact C6_lookup_errors.1 0 (s "a") []
  · exact (C6_lookup_errors.2.1 0 [(s "z", Val.num 1)] (by rfl)).1
  · exact C6_lookup_errors.2.2.1 0 [(s "x", Val.num 5)] (Val.num 5) (by rfl)
      (fun sub hh => nomatch hh)
  · exact C6_lookup_errors.2.2.2 1 (s "c") (s "../a") [] .rootEscape (by rfl)

/-! ## C2: a missing top-level parameter-set name -/

/-- C2 (evaluating the code at the failing input): when a name passed
directly to the orchestrator is absent from the store,
`initialize_parameters` prints its warning but then feeds `None` into
`_import_include_params`, whose `params.get("@include")` raises
AttributeError — initialization aborts instead of proceeding with an
empty contribution. -/
theorem C2_missing_setup_name_raises :
    ∀ (store : Store) (fuel : Nat) (name : PStr) (rest : List PStr),
      load_params store name = none →
      init_parameters store fuel (name :: rest) = .error .attributeError := by
  intro store fuel name rest h
  simp [init_parameters, init_names_loop, h]

/-- Witness for C2: an empty store and the single name "missing". -/
theorem C2_missing_setup_name_raises_witness :
    init_parameters [] 5 [s "missing"] = .error .attributeError :=
  C2_missing_setup_name_raises [] 5 (s "missing") [] (by rfl)

/-! ## C9: the public read API -/

/-- Counterexample to C9 as stated: the recursive call of
`_get_parameter_from_dict` passes `addr[1:]` WITHOUT the `*` unpack, so
after one step the remaining path is a single packed tuple.  Looking up
the existing key `a` in `{a: 5}` therefore recurses on `(5, ((),))` and
the membership test `() in 5` raises TypeError — the lookup fails
instead of returning the null sentinel; and looking up the fully
present path `a.b` in `{a: {b: 2}}` tests `("b",) in {b: 2}`, which is
false, and returns the null sentinel instead of the value `2`. -/
theorem C9_counterexample :
    get_parameter [(s "a", Val.num 5)] [s "a"] = .error .typeError
    ∧ (∀ r : Val, get_parameter [(s "a", Val.num 5)] [s "a"] ≠ .ok r)
    ∧ get_parameter [(s "a", Val.dict [(s "b", Val.num 2)])] [s "a", s "b"]
        = .ok Val.null
    ∧ Val.null ≠ Val.num 2 := by
  have h1 : get_parameter [(s "a", Val.num 5)] [s "a"]
      = .error .typeError := by
    simp [get_parameter, get_parameter_from_dict, pyContainsArg, pyIndex,
      containsKey, lookupD, s]
  have h2 : get_parameter [(s "a", Val.dict [(s "b", Val.num 2)])]
      [s "a", s "b"] = .ok Val.null := by
    simp [get_parameter, get_parameter_from_dict, pyContainsArg, pyIndex,
      containsKey, lookupD, s]
  exact ⟨h1, fun r hr => by rw [h1] at hr; exact Except.noConfusion hr, h2,
    fun hh => nomatch hh⟩

/-- C9 (amended): an empty path returns the whole tree, and an absent
first segment returns the null sentinel (with a printed diagnostic);
but because the recursive call packs the remaining path into one tuple
(the missing `*` at the recursive call site), a present first segment
never yields the stored value: whatever the rest of the path, the
lookup returns the null sentinel when the first segment's value is a
mapping or a sequence, and raises TypeError when it is a scalar or a
string. -/
theorem C9_read_api_packed_tuple :
    (∀ d : Val, get_parameter_from_dict d [] = .ok d)
    ∧ (∀ (params : Dict) (a0 : PStr) (rest : List PStr),
      lookupD params a0 = none →
      get_parameter params (a0 :: rest) = .ok Val.null)
    ∧ (∀ (v : Val) (l : List PathArg),
      get_parameter_from_dict v [PathArg.tup l]
        = (match v with
           | Val.dict _ => Except.ok Val.null
           | Val.arr _ => Except.ok Val.null
           | _ => Except.error PyErr.typeError))
    ∧ (∀ (params : Dict) (a0 : PStr) (rest : List PStr) (v : Val),
      lookupD params a0 = some v →
      get_parameter params (a0 :: rest)
        = (match v with
           | Val.dict _ => Except.ok Val.null
           | Val.arr _ => Except.ok Val.null
           | _ => Except.error PyErr.typeError)) := by
  have key : ∀ (v : Val) (l : List PathArg),
      get_parameter_from_dict v [PathArg.tup l]
        = (match v with
           | Val.dict _ => Except.ok Val.null
           | Val.arr _ => Except.ok Val.null
           | _ => Except.error PyErr.typeError) := by
    intro v l
    rw [get_parameter_from_dict]
    cases v <;> simp [pyContainsArg]
  refine ⟨?_, ?_, key, ?_⟩
  · intro d
    rw [get_parameter_from_dict]
  · intro params a0 rest h
    have hcv : pyContainsArg (Val.dict params) (PathArg.str a0)
        = Except.ok false := by
      simp [pyContainsArg, containsKey, h]
    simp only [get_parameter, List.map_cons]
    rw [get_parameter_from_dict, hcv]
  · intro params a0 rest v h
    have hcv : pyContainsArg (Val.dict params) (PathArg.str a0)
        = Except.ok true := by
      simp [pyContainsArg, containsKey, h]
    have hix : pyIndex (Val.dict params) (PathArg.str a0)
        = Except.ok v := by
      simp [pyIndex, h]
    simp only [get_parameter, List.map_cons]
    rw [get_parameter_from_dict, hcv]
    simp only [hix]
    exact key v _

/-- Witness for C9 (amended) at concrete inputs: an absent segment
gives the sentinel; a fully present two-segment path also gives the
sentinel (the value's type, a mapping, decides); a present segment
whose value is a string raises TypeError. -/
theorem C9_read_api_packed_tuple_witness :
    get_parameter [(s "a", Val.num 5)] [s "b"] = .ok Val.null
    ∧ get_parameter [(s "a", Val.dict [(s "b", Val.num 2)])] [s "a", s "b"]
        = .ok Val.null
    ∧ get_parameter [(s "a", Val.str (s "x"))] [s "a"]
        = .error .typeError := by
  refine ⟨?_, ?_, ?_⟩
  · exact C9_read_api_packed_tuple.2.1 _ _ _ (by rfl)
  · exact C9_read_api_packed_tuple.2.2.2 [(s "a", Val.dict [(s "b", Val.num 2)])]
      (s "a") [s "b"] (Val.dict [(s "b", Val.num 2)]) (by rfl)
  · exact C9_read_api_packed_tuple.2.2.2 [(s "a", Val.str (s "x"))]
      (s "a") [] (Val.str (s "x")) (by rfl)

/-! ## C7: `_dict_merge` never mutates its first argument -/

theorem heapSet_some (g : Heap) (a : Nat) (k : PStr) (v : HVal) (g2 : Heap)
    (hs : heapSet g a k v = some g2) :
    g2.length = g.length ∧ ∀ i, i ≠ a → g2[i]? = g[i]? := by
  unfold heapSet at hs
  rcases hd : g[a]? with _ | d
  · rw [hd] at hs
    exact absurd hs (by simp)
  · rw [hd] at hs
    simp only [Option.some.injEq] at hs
    subst hs
    refine ⟨List.length_set _ _ _, fun i hi => ?_⟩
    exact List.getElem?_set_ne (fun he => hi he.symm)

/-- The frame property of the heap-level `_dict_merge`: a run only
allocates fresh objects and writes into the freshly allocated `outdict`
(for a `go` call, the object at address `out`); every other
pre-existing object is untouched. -/
theorem hrun_frame :
    ∀ (fuel : Nat) (c : MCall) (g g2 : Heap) (r : Nat),
      hrun fuel g c = some (g2, r) →
      g.length ≤ g2.length ∧
      ∀ i, i < g.length →
        (∀ a1 out l, c = MCall.go a1 out l → i ≠ out) →
        g2[i]? = g[i]? := by
  intro fuel
  induction fuel with
  | zero =>
    intro c g g2 r hr
    exact absurd hr (by simp [hrun])
  | succ f ih =>
    intro c g g2 r hr
    cases c with
    | merge a1 a2 =>
      rw [hrun] at hr
      rcases h1 : g[a1]? with _ | d1
      · rw [h1] at hr; simp at hr
      · rw [h1] at hr
        simp at hr
        rcases h2 : g[a2]? with _ | d2
        · rw [h2] at hr; simp at hr
        · rw [h2] at hr
          simp at hr
          obtain ⟨hlen, hpres⟩ := ih _ _ _ _ hr
          have hlen' : g.length ≤ (g ++ [d1]).length := by simp
          refine ⟨le_trans hlen' hlen, fun i hi _ => ?_⟩
          rw [hpres i (by simp; omega) (fun a1' out' l' hc => by
            cases hc; omega)]
          exact List.getElem?_append_left hi
    | go a1 out l =>
      cases l with
      | nil =>
        rw [hrun] at hr
        simp only [Option.some.injEq, Prod.mk.injEq] at hr
        obtain ⟨rfl, rfl⟩ := hr
        exact ⟨le_refl _, fun i _ _ => rfl⟩
      | cons kv rest =>
        obtain ⟨k, v⟩ := kv
        rw [hrun] at hr
        rcases h1 : g[a1]? with _ | d1
        · rw [h1] at hr; simp at hr
        · rw [h1] at hr
          simp at hr
          rcases hb : bothRefs (lookupH d1 k) v with _ | ⟨s1, s2⟩
          · -- plain overwrite
            rw [hb] at hr
            rcases hs : heapSet g out k v with _ | g3
            · rw [hs] at hr; simp at hr
            · rw [hs] at hr
              simp at hr
              obtain ⟨hl2, hp2⟩ := heapSet_some _ _ _ _ _ hs
              obtain ⟨hl3, hp3⟩ := ih _ _ _ _ hr
              constructor
              · omega
              · intro i hi hguard
                have hio : i ≠ out := hguard a1 out ((k, v) :: rest) rfl
                rw [hp3 i (by omega) (fun a1' out' l' hc => by
                    cases hc; exact hio),
                  hp2 i hio]
          · -- both values are dict references: recursive merge
            rw [hb] at hr
            simp at hr
            rcases hm : hrun f g (.merge s1 s2) with _ | gm
            · rw [hm] at hr; simp at hr
            · obtain ⟨gm', m⟩ := gm
              rw [hm] at hr
              simp at hr
              rcases hs : heapSet gm' out k (HVal.ref m) with _ | g3
              · rw [hs] at hr; simp at hr
              · rw [hs] at hr
                simp at hr
                obtain ⟨hl1, hp1⟩ := ih _ _ _ _ hm
                obtain ⟨hl2, hp2⟩ := heapSet_some _ _ _ _ _ hs
                obtain ⟨hl3, hp3⟩ := ih _ _ _ _ hr
                constructor
                · omega
                · intro i hi hguard
                  have hio : i ≠ out := hguard a1 out ((k, v) :: rest) rfl
                  rw [hp3 i (by omega) (fun a1' out' l' hc => by
                      cases hc; exact hio),
                    hp2 i hio,
                    hp1 i hi (fun a1' out' l' hc => by cases hc)]

/-- C7: the heap-level `_dict_merge` leaves every pre-existing heap
object — in particular its first argument's dict object and every
object of its nested subtrees — exactly as it was. -/
theorem C7_merge_no_mutation :
    ∀ (fuel : Nat) (g : Heap) (a1 a2 : Nat) (g2 : Heap) (m : Nat),
      hrun fuel g (.merge a1 a2) = some (g2, m) →
      ∀ i, i < g.length → g2[i]? = g[i]? := by
  intro fuel g a1 a2 g2 m hr i hi
  exact (hrun_frame fuel _ g g2 m hr).2 i hi (fun _ _ _ hc => by cases hc)

/-- Witness for C7: merging `{a: {x: 1, y: 2}}` (addresses 0, 1) with
`{a: {y: 3, z: 4}}` (addresses 2, 3) allocates the result at addresses
4 and 5 and leaves the original objects intact, e.g. the nested dict of
the first argument at address 1. -/
theorem C7_merge_no_mutation_witness :
    hrun 10 exHeap (.merge 0 2) = some (exHeap2, 4)
    ∧ exHeap2[1]? = exHeap[1]? := by
  have hr : hrun 10 exHeap (.merge 0 2) = some (exHeap2, 4) := rfl
  exact ⟨hr, C7_merge_no_mutation 10 exHeap 0 2 exHeap2 4 hr 1
    (by simp [exHeap])⟩
